import Mathlib

/-!
Shallow embedding of the availability engine and appointment status state
machine of the saloon_guide_backend repository.

Sources embedded here:
* `src/controllers/appointment.controller.ts` — `updateAppointmentStatus`
  (authorization check, transition validation, row update) and
  `isValidStatusTransition`.
* `src/controllers/user.controller.ts` — `getSaloonAvailability`
  (slot generation loop, past-slot exclusion), `isTimeSlotAvailable`,
  `isSameDay`, and the SQL appointment fetch with its COALESCE duration
  fallback and optional service filter.

Machine integers are modelled as `Nat` (all quantities involved are
non-negative minute counts or identifiers); the one place the source
computes a possibly negative value (`closingMinute - 1`) is modelled
with `Int`. Timestamps within a day are minutes since local midnight.
-/

namespace SaloonGuide

/-- Appointment statuses, from the `AppointmentStatus` enum in
`src/models/appointment.model.ts`. -/
inductive AppointmentStatus where
  | pending
  | confirmed
  | cancelled
  | completed
deriving DecidableEq, BEq, Repr

/-- The database string of a status, as in the `AppointmentStatus` enum. -/
def AppointmentStatus.toDbString : AppointmentStatus → String
  | .pending => "pending"
  | .confirmed => "confirmed"
  | .cancelled => "cancelled"
  | .completed => "completed"

/-- `isValidStatusTransition` from `src/controllers/appointment.controller.ts`
(lines 298-324), translated clause by clause. -/
def isValidStatusTransition (currentStatus newStatus : AppointmentStatus)
    ( isOwner : Bool) : Bool :=
  if isOwner then
    if currentStatus == AppointmentStatus.pending then
      [AppointmentStatus.confirmed, AppointmentStatus.cancelled].contains newStatus
    else if currentStatus == AppointmentStatus.confirmed then
      [AppointmentStatus.completed, AppointmentStatus.cancelled].contains newStatus
    else
      false
  else
    if [AppointmentStatus.pending, AppointmentStatus.confirmed].contains currentStatus then
      newStatus == AppointmentStatus.cancelled
    else
      false

/-- An appointment row as fetched by `updateAppointmentStatus` (the row of
the `appointments` table; the joined `owner_id` of the owning saloon is
passed separately). `notes` is nullable, hence `Option String`. -/
structure AppointmentRow where
  id : Nat
  guest_id : Nat
  saloon_id : Nat
  service_id : Nat
  appointment_date : Nat
  status : AppointmentStatus
  notes : Option String
  updated_at : Nat
deriving DecidableEq, Repr

/-- The error taxonomy of `src/utils/errors.ts`, restricted to the variants
thrown by the embedded controller logic. -/
inductive AppError where
  | notFound (msg : String)
  | validation (msg : String)
  | authorization (msg : String)
  | database (msg : String)
deriving DecidableEq, Repr

/-- The message of the `ValidationError` thrown on an invalid transition
(line 252 of `appointment.controller.ts`): it interpolates the current
status, the target status, and refers to the acting role. -/
def statusTransitionMessage (currentStatus newStatus : AppointmentStatus) : String :=
  "Cannot change status from \x27" ++ currentStatus.toDbString ++
    "\x27 to \x27" ++ newStatus.toDbString ++ "\x27 with your role"

/-- The row update performed on success (lines 255-269): `status` is always
written, `notes` only when present in the request (`notes !== undefined`;
a supplied `null` is written as stored null), and `updated_at` is set to
`NOW()`. `requestNotes = none` models an absent field; `some v` a supplied
value `v : Option String` (where `none` inside models SQL null). -/
def applyStatusUpdate (appointment : AppointmentRow) (status : AppointmentStatus)
    (requestNotes : Option (Option String)) (now : Nat) : AppointmentRow :=
  { appointment with
      status := status
      notes := match requestNotes with
               | some n => n
               | none => appointment.notes
      updated_at := now }

/-- The decision logic of `updateAppointmentStatus` (lines 239-269) after the
appointment row has been fetched: authorization check first, then the
transition-table check, then the update. `ownerId` is the `owner_id` joined
from the owning saloon. -/
def updateAppointmentStatusCore (userId : Nat) ( isOwner isGuest : Bool)
    (appointment : AppointmentRow) (ownerId : Nat) (status : AppointmentStatus)
    (requestNotes : Option (Option String)) (now : Nat) :
    Except AppError AppointmentRow :=
  let canUpdate := ( isOwner && ownerId == userId) || (isGuest && appointment.guest_id == userId)
  if !canUpdate then
    Except.error (AppError.authorization "You can only update your own appointments")
  else if !(isValidStatusTransition appointment.status status isOwner) then
    Except.error (AppError.validation (statusTransitionMessage appointment.status status))
  else
    Except.ok (applyStatusUpdate appointment status requestNotes now)

/-- The transition table exactly as the specification states it, keyed by
role: owner may take pending to confirmed or cancelled and confirmed to
completed or cancelled; guest may take pending or confirmed to cancelled;
nothing leaves cancelled or completed. Stated from the spec wording for
comparison with `isValidStatusTransition`. -/
def specTransitionTable (current target : AppointmentStatus) ( isOwner : Bool) : Bool :=
  if isOwner then
    (current == AppointmentStatus.pending &&
      (target == AppointmentStatus.confirmed || target == AppointmentStatus.cancelled)) ||
    (current == AppointmentStatus.confirmed &&
      (target == AppointmentStatus.completed || target == AppointmentStatus.cancelled))
  else
    (current == AppointmentStatus.pending && target == AppointmentStatus.cancelled) ||
    (current == AppointmentStatus.confirmed && target == AppointmentStatus.cancelled)

lemma isValidStatusTransition_eq_specTable (c t : AppointmentStatus) (o : Bool) :
    isValidStatusTransition c t o = specTransitionTable c t o := by
  cases c <;> cases t <;> cases o <;> rfl

/-- A sample appointment row used by concrete witnesses. -/
def sampleAppointment : AppointmentRow :=
  { id := 7, guest_id := 3, saloon_id := 2, service_id := 4,
    appointment_date := 1000, status := AppointmentStatus.pending,
    notes := none, updated_at := 0 }

/-! ## Availability engine (`src/controllers/user.controller.ts`) -/

/-- A local calendar day (year, month, day), the data `isSameDay` compares. -/
structure Day where
  year : Nat
  month : Nat
  day : Nat
deriving DecidableEq, Repr

/-- `isSameDay` from `user.controller.ts` (lines 983-987). -/
def isSameDay (date1 date2 : Day) : Bool :=
  date1.year == date2.year && date1.month == date2.month && date1.day == date2.day

/-- The three-clause overlap condition tested inside `isTimeSlotAvailable`
(lines 952-956), on interval endpoints in minutes. -/
def overlapsAppointment (slotTime slotEndTime appointmentTime appointmentEndTime : Nat) : Bool :=
  (decide (slotTime ≥ appointmentTime) && decide (slotTime < appointmentEndTime)) ||
  (decide (slotEndTime > appointmentTime) && decide (slotEndTime ≤ appointmentEndTime)) ||
  (decide (slotTime ≤ appointmentTime) && decide (slotEndTime ≥ appointmentEndTime))

/-- `isTimeSlotAvailable` (lines 936-962): the candidate, with end
`slotTime + slotDuration`, is available iff it overlaps no existing
appointment `(start, duration)`. The source loop returns `false` on the
first overlap, which is `List.all` of the negation. -/
def isTimeSlotAvailable (slotTime slotDuration : Nat)
    (existingAppointments : List (Nat × Nat)) : Bool :=
  existingAppointments.all (fun appointment =>
    !(overlapsAppointment slotTime (slotTime + slotDuration)
        appointment.1 (appointment.1 + appointment.2)))

/-- The half-open interval overlap rule as the specification words it:
`[s1, e1)` and `[s2, e2)` overlap iff `s1 < e2` and `s2 < e1`. Stated from
the spec for comparison with `overlapsAppointment`. -/
def halfOpenOverlap (s1 e1 s2 e2 : Nat) : Bool :=
  decide (s1 < e2) && decide (s2 < e1)

/-- The minute loop of the slot generator
(`for (minute = startMinute; minute <= endMinute; minute += slotInterval)`,
line 890, with `slotInterval = 30`), written with an explicit iteration
bound: `fuel` is at least the number of iterations whenever it is at least
`endMinute + 1 - startMinute`, so `slotMinutes` below is exactly the loop. -/
def slotMinutesGo : Nat → Nat → Int → List Nat
  | 0, _, _ => []
  | fuel + 1, minute, endMinute =>
    if (minute : Int) ≤ endMinute then
      minute :: slotMinutesGo fuel (minute + 30) endMinute
    else []

/-- The minute values emitted for one hour: `startMinute, startMinute + 30, ...`
while `≤ endMinute`. -/
def slotMinutes (startMinute : Nat) (endMinute : Int) : List Nat :=
  slotMinutesGo (endMinute + 1 - (startMinute : Int)).toNat startMinute endMinute

/-- `Math.ceil(startMinute / slotInterval) * slotInterval` (line 887) with
`slotInterval = 30`, on natural numbers. -/
def roundUpToSlotInterval (minute : Nat) : Nat :=
  ((minute + 29) / 30) * 30

/-- The `startMinute` local of the hour loop (lines 870-876): `openingMinute`
for the opening hour, else 0. -/
def hourStartMinute (openingHour openingMinute hour : Nat) : Nat :=
  if hour == openingHour then openingMinute else 0

/-- The `endMinute` local of the hour loop (lines 871-880):
`closingMinute - 1` for the closing hour (possibly `-1`), else 59. -/
def hourEndMinute (closingHour closingMinute hour : Nat) : Int :=
  if hour == closingHour then (closingMinute : Int) - 1 else 59

/-- One iteration of the hour loop (lines 868-890): skip the closing hour
when `startMinute > endMinute`, otherwise round the start minute up to the
slot interval and emit a slot start (in minutes since midnight) every 30
minutes up to `endMinute`. -/
def hourSlots (openingHour openingMinute closingHour closingMinute hour : Nat) : List Nat :=
  if hour == closingHour &&
      decide ((hourStartMinute openingHour openingMinute hour : Int) >
        hourEndMinute closingHour closingMinute hour) then
    []
  else
    (slotMinutes (roundUpToSlotInterval (hourStartMinute openingHour openingMinute hour))
        (hourEndMinute closingHour closingMinute hour)).map
      (fun minute => hour * 60 + minute)

/-- The full candidate enumeration
(`for (hour = openingHour; hour <= closingHour; hour++)`, line 868). -/
def candidateSlots (openingHour openingMinute closingHour closingMinute : Nat) : List Nat :=
  ((List.range (closingHour + 1 - openingHour)).map (fun i => openingHour + i)).flatMap
    (fun hour => hourSlots openingHour openingMinute closingHour closingMinute hour)

/-- The past-slot test (lines 894-898): `isSameDay(slotDate, now) && slotDate < now`.
The slot instant lies on `targetDay` at `slotMinute` minutes past midnight;
when the days coincide the instant comparison is the minute comparison, and
when they differ the conjunction is false either way. -/
def isPastSlot (targetDay : Day) (slotMinute : Nat) (nowDay : Day) (nowMinute : Nat) : Bool :=
  isSameDay targetDay nowDay && decide (slotMinute < nowMinute)

/-- The availability filter of `getSaloonAvailability` (lines 863-908): keep
each candidate that is not a past slot and does not overlap an existing
appointment. -/
def getAvailableSlots (targetDay : Day)
    (openingHour openingMinute closingHour closingMinute : Nat)
    (serviceDuration : Nat) (nowDay : Day) (nowMinute : Nat)
    (appointments : List (Nat × Nat)) : List Nat :=
  (candidateSlots openingHour openingMinute closingHour closingMinute).filter
    (fun slot =>
      !(isPastSlot targetDay slot nowDay nowMinute) &&
      isTimeSlotAvailable slot serviceDuration appointments)

/-! ### The appointment fetch and duration fallbacks -/

/-- A stored appointment as the availability query sees the `appointments`
table joined with `saloon_services`: the stored `duration` of the service is
nullable. `startMinute` is the minute-of-day of `appointment_date`, whose
calendar day is `day`. -/
structure StoredAppointment where
  saloon_id : Nat
  service_id : Nat
  day : Day
  startMinute : Nat
  duration : Option Nat
  status : AppointmentStatus
deriving DecidableEq, Repr

/-- `status IN (\x27pending\x27, \x27confirmed\x27)` of the fetch query (line 848). -/
def isBlockingStatus (s : AppointmentStatus) : Bool :=
  s == AppointmentStatus.pending || s == AppointmentStatus.confirmed

/-- `COALESCE(ss.duration, 60)` of the fetch query (line 842). -/
def coalesceDuration (duration : Option Nat) : Nat :=
  duration.getD 60

/-- JavaScript `service.duration || 60` (line 831): undefined, null and 0 all
fall back to 60. -/
def jsOrDefault (duration : Option Nat) (fallback : Nat) : Nat :=
  match duration with
  | none => fallback
  | some d => if d == 0 then fallback else d

/-- The WHERE clause of the fetch query (lines 846-857): same saloon, same
date, blocking status, and — only when a service was requested — the same
service. -/
def matchesFetch (saloonId : Nat) (targetDay : Day) (serviceFilter : Option Nat)
    (a : StoredAppointment) : Bool :=
  decide (a.saloon_id = saloonId) && decide (a.day = targetDay) &&
  isBlockingStatus a.status &&
  (match serviceFilter with
   | none => true
   | some serviceId => decide (a.service_id = serviceId))

/-- The appointment fetch (lines 838-861): appointments of the saloon on the
target date in a blocking status, restricted to the requested service when
one was supplied, each expanded to `(startMinute, resolved duration)`. -/
def fetchAppointments (store : List StoredAppointment) (saloonId : Nat)
    (targetDay : Day) (serviceFilter : Option Nat) : List (Nat × Nat) :=
  (store.filter (matchesFetch saloonId targetDay serviceFilter)).map
    (fun a => (a.startMinute, coalesceDuration a.duration))

/-- Replace a missing stored duration by an explicit 60 (the transform the
specification says is equivalent to the fallback behaviour). -/
def fillStoredDuration (a : StoredAppointment) : StoredAppointment :=
  { a with duration := some (a.duration.getD 60) }

/-- Replace a missing requested-service duration by an explicit 60. -/
def fillServiceDuration (s : Nat × Option Nat) : Nat × Option Nat :=
  (s.1, some (s.2.getD 60))

/-- The candidate slot duration (lines 817-832): 60 when no service was
requested, otherwise `service.duration || 60`. The requested service is
`some (serviceId, storedDuration)` when supplied. -/
def requestedServiceDuration (service : Option (Nat × Option Nat)) : Nat :=
  match service with
  | none => 60
  | some s => jsOrDefault s.2 60

/-- The availability computation of `getSaloonAvailability` end to end:
resolve the candidate duration, fetch the blocking appointments (filtered by
service when one was requested), then generate and filter slots. -/
def getSaloonAvailabilityCore (store : List StoredAppointment) (saloonId : Nat)
    (targetDay : Day) (openingHour openingMinute closingHour closingMinute : Nat)
    (service : Option (Nat × Option Nat)) (nowDay : Day) (nowMinute : Nat) : List Nat :=
  getAvailableSlots targetDay openingHour openingMinute closingHour closingMinute
    (requestedServiceDuration service) nowDay nowMinute
    (fetchAppointments store saloonId targetDay (service.map (fun s => s.1)))

/-! ## Theorems: appointment state machine -/

/-- Claim C1: for an eligible actor (owning saloon owner or the appointment
guest), a status transition succeeds exactly when the (current, target, role)
triple is in the table — owner: pending to confirmed or cancelled, confirmed
to completed or cancelled; guest: pending or confirmed to cancelled — and
every other combination (in particular anything out of cancelled or
completed) fails with a validation error carrying the attempted current and
target states and referring to the acting role. -/
theorem C1_status_transition_table (userId ownerId : Nat) ( isOwner isGuest : Bool)
    (appointment : AppointmentRow) (target : AppointmentStatus)
    (requestNotes : Option (Option String)) (now : Nat)
    (helig : (( isOwner && ownerId == userId) ||
      (isGuest && appointment.guest_id == userId)) = true) :
    ((∃ updated, updateAppointmentStatusCore userId isOwner isGuest appointment ownerId
        target requestNotes now = Except.ok updated) ↔
      specTransitionTable appointment.status target isOwner = true) ∧
    (specTransitionTable appointment.status target isOwner = false →
      updateAppointmentStatusCore userId isOwner isGuest appointment ownerId
          target requestNotes now =
        Except.error (AppError.validation
          (statusTransitionMessage appointment.status target))) := by
  have hv := isValidStatusTransition_eq_specTable appointment.status target isOwner
  simp only [updateAppointmentStatusCore, helig, Bool.not_true, Bool.false_eq_true,
    if_false, hv]
  cases h : specTransitionTable appointment.status target isOwner <;>
    simp [h]

/-- Witness for C1 at a concrete eligible owner confirming a pending
appointment. -/
theorem C1_status_transition_table_witness :
    ((∃ updated, updateAppointmentStatusCore 1 true false sampleAppointment 1
        AppointmentStatus.confirmed none 5 = Except.ok updated) ↔
      specTransitionTable sampleAppointment.status AppointmentStatus.confirmed true = true) ∧
    (specTransitionTable sampleAppointment.status AppointmentStatus.confirmed true = false →
      updateAppointmentStatusCore 1 true false sampleAppointment 1
          AppointmentStatus.confirmed none 5 =
        Except.error (AppError.validation
          (statusTransitionMessage sampleAppointment.status AppointmentStatus.confirmed))) :=
  C1_status_transition_table 1 1 true false sampleAppointment
    AppointmentStatus.confirmed none 5 (by decide)

/-- Claim C7: an actor who is neither the owner of the appointment saloon nor
the appointment guest always receives the authorization error, regardless of
the requested transition — the authorization check precedes the transition
table, so such an actor never sees the invalid-transition validation error. -/
theorem C7_authorization_precedes_table (userId ownerId : Nat) ( isOwner isGuest : Bool)
    (appointment : AppointmentRow) (target : AppointmentStatus)
    (requestNotes : Option (Option String)) (now : Nat)
    (hineligible : (( isOwner && ownerId == userId) ||
      (isGuest && appointment.guest_id == userId)) = false) :
    updateAppointmentStatusCore userId isOwner isGuest appointment ownerId
        target requestNotes now =
      Except.error (AppError.authorization "You can only update your own appointments") := by
  simp only [updateAppointmentStatusCore, hineligible, Bool.not_false, if_true]

/-- Witness for C7: a guest who does not own the appointment requests the
(table-invalid) transition cancelled to pending and still gets the
authorization error, not the validation error. -/
theorem C7_authorization_precedes_table_witness :
    updateAppointmentStatusCore 9 false true
        { sampleAppointment with status := AppointmentStatus.cancelled } 1
        AppointmentStatus.pending none 5 =
      Except.error (AppError.authorization "You can only update your own appointments") :=
  C7_authorization_precedes_table 9 1 false true
    { sampleAppointment with status := AppointmentStatus.cancelled }
    AppointmentStatus.pending none 5 (by decide)

/-- Claim C10: a successful status transition writes only the status, the
notes (and the notes only when the request supplied a notes value), and the
updated_at timestamp; the id, guest, saloon, service and appointment date are
unchanged, and without a supplied notes value the stored notes are unchanged. -/
theorem C10_update_frame (userId ownerId : Nat) ( isOwner isGuest : Bool)
    (appointment updated : AppointmentRow) (target : AppointmentStatus)
    (requestNotes : Option (Option String)) (now : Nat)
    (hok : updateAppointmentStatusCore userId isOwner isGuest appointment ownerId
      target requestNotes now = Except.ok updated) :
    updated.id = appointment.id ∧
    updated.guest_id = appointment.guest_id ∧
    updated.saloon_id = appointment.saloon_id ∧
    updated.service_id = appointment.service_id ∧
    updated.appointment_date = appointment.appointment_date ∧
    updated.status = target ∧
    updated.updated_at = now ∧
    (requestNotes = none → updated.notes = appointment.notes) ∧
    (∀ v, requestNotes = some v → updated.notes = v) := by
  simp only [updateAppointmentStatusCore] at hok
  split at hok
  · cases hok
  · split at hok
    · cases hok
    · have hupd : applyStatusUpdate appointment target requestNotes now = updated := by
        exact Except.ok.inj hok
      subst hupd
      cases requestNotes <;>
        simp [applyStatusUpdate]

/-- Witness for C10 at a concrete successful transition. -/
theorem C10_update_frame_witness :
    (applyStatusUpdate sampleAppointment AppointmentStatus.confirmed none 42).id =
      sampleAppointment.id ∧
    (applyStatusUpdate sampleAppointment AppointmentStatus.confirmed none 42).guest_id =
      sampleAppointment.guest_id ∧
    (applyStatusUpdate sampleAppointment AppointmentStatus.confirmed none 42).saloon_id =
      sampleAppointment.saloon_id ∧
    (applyStatusUpdate sampleAppointment AppointmentStatus.confirmed none 42).service_id =
      sampleAppointment.service_id ∧
    (applyStatusUpdate sampleAppointment AppointmentStatus.confirmed none 42).appointment_date =
      sampleAppointment.appointment_date ∧
    (applyStatusUpdate sampleAppointment AppointmentStatus.confirmed none 42).status =
      AppointmentStatus.confirmed ∧
    (applyStatusUpdate sampleAppointment AppointmentStatus.confirmed none 42).updated_at = 42 ∧
    ((none : Option (Option String)) = none →
      (applyStatusUpdate sampleAppointment AppointmentStatus.confirmed none 42).notes =
        sampleAppointment.notes) ∧
    (∀ v, (none : Option (Option String)) = some v →
      (applyStatusUpdate sampleAppointment AppointmentStatus.confirmed none 42).notes = v) :=
  C10_update_frame 1 1 true false sampleAppointment
    (applyStatusUpdate sampleAppointment AppointmentStatus.confirmed none 42)
    AppointmentStatus.confirmed none 42 rfl

/-! ## Theorems: overlap resolver -/

lemma overlaps_eq_halfOpen (s1 d1 s2 d2 : Nat) (h1 : 0 < d1) (h2 : 0 < d2) :
    overlapsAppointment s1 (s1 + d1) s2 (s2 + d2) =
      halfOpenOverlap s1 (s1 + d1) s2 (s2 + d2) := by
  simp only [overlapsAppointment, halfOpenOverlap]
  rw [Bool.eq_iff_iff]
  simp only [Bool.or_eq_true, Bool.and_eq_true, decide_eq_true_eq, ge_iff_le, gt_iff_lt]
  omega

/-- Claim C2: for strictly positive durations, the three-clause overlap test
of the source is logically equivalent to the half-open-interval rule
`s1 < e2 and s2 < e1`; consequently `isTimeSlotAvailable` returns true iff
the candidate half-open-overlaps none of the supplied appointments. -/
theorem C2_overlap_equiv (s1 d1 s2 d2 : Nat)
    (existingAppointments : List (Nat × Nat))
    (h1 : 0 < d1) (h2 : 0 < d2)
    (hpos : ∀ a ∈ existingAppointments, 0 < a.2) :
    (overlapsAppointment s1 (s1 + d1) s2 (s2 + d2) =
      halfOpenOverlap s1 (s1 + d1) s2 (s2 + d2)) ∧
    (isTimeSlotAvailable s1 d1 existingAppointments = true ↔
      ∀ a ∈ existingAppointments,
        halfOpenOverlap s1 (s1 + d1) a.1 (a.1 + a.2) = false) := by
  refine ⟨overlaps_eq_halfOpen s1 d1 s2 d2 h1 h2, ?_⟩
  simp only [isTimeSlotAvailable, List.all_eq_true, Bool.not_eq_eq_eq_not, Bool.not_true]
  constructor
  · intro h a ha
    have := h a ha
    rwa [overlaps_eq_halfOpen s1 d1 a.1 a.2 h1 (hpos a ha)] at this
  · intro h a ha
    rw [overlaps_eq_halfOpen s1 d1 a.1 a.2 h1 (hpos a ha)]
    exact h a ha

/-- Witness for C2 at a concrete candidate and appointment list. -/
theorem C2_overlap_equiv_witness :
    (overlapsAppointment 0 (0 + 30) 100 (100 + 30) =
      halfOpenOverlap 0 (0 + 30) 100 (100 + 30)) ∧
    (isTimeSlotAvailable 0 30 [(100, 30)] = true ↔
      ∀ a ∈ [((100 : Nat), (30 : Nat))],
        halfOpenOverlap 0 (0 + 30) a.1 (a.1 + a.2) = false) :=
  C2_overlap_equiv 0 30 100 30 [(100, 30)] (by decide) (by decide)
    (by decide)

/-- Counterexample to claim C3 as stated: against the appointment from
minute 600 (10:00) lasting 30 minutes, the 30-minute candidate at minute 585
(09:45, ending 10:15) is NOT available — the claim asserts it is available. -/
theorem C3_boundary_counterexample :
    isTimeSlotAvailable 585 30 [(600, 30)] = false := by decide

lemma overlapsAppointment_iff (s1 e1 s2 e2 : Nat) :
    overlapsAppointment s1 e1 s2 e2 = true ↔
      ((s2 ≤ s1 ∧ s1 < e2) ∨ (s2 < e1 ∧ e1 ≤ e2) ∨ (s1 ≤ s2 ∧ e2 ≤ e1)) := by
  simp only [overlapsAppointment, Bool.or_eq_true, Bool.and_eq_true, decide_eq_true_eq,
    ge_iff_le, gt_iff_lt]
  tauto

lemma overlapsAppointment_eq_false_iff (s1 e1 s2 e2 : Nat) :
    overlapsAppointment s1 e1 s2 e2 = false ↔
      ¬((s2 ≤ s1 ∧ s1 < e2) ∨ (s2 < e1 ∧ e1 ≤ e2) ∨ (s1 ≤ s2 ∧ e2 ≤ e1)) := by
  rw [Bool.eq_false_iff, Ne, overlapsAppointment_iff]

lemma isTimeSlotAvailable_singleton (s1 d1 s2 d2 : Nat) :
    isTimeSlotAvailable s1 d1 [(s2, d2)] =
      !(overlapsAppointment s1 (s1 + d1) s2 (s2 + d2)) := by
  simp [isTimeSlotAvailable]

/-- Claim C3 amended: for positive durations, a candidate ending exactly at
the appointment start is available, a candidate starting exactly at the
appointment end is available, and a candidate starting exactly at the
appointment start is not; against the appointment 10:00-10:30, any candidate
starting 10:30 is available, while the 30-minute candidate at 09:45 (which
ends 10:15, inside the appointment) and a candidate starting 10:00 are not
available. -/
theorem C3_boundary_amended (s2 d1 d2 : Nat) (h1 : 0 < d1) (h2 : 0 < d2) :
    (isTimeSlotAvailable (s2 + d2) d1 [(s2, d2)] = true) ∧
    (∀ s1, s1 + d1 = s2 → isTimeSlotAvailable s1 d1 [(s2, d2)] = true) ∧
    (isTimeSlotAvailable s2 d1 [(s2, d2)] = false) ∧
    (isTimeSlotAvailable 630 d1 [(600, 30)] = true) ∧
    (isTimeSlotAvailable 585 30 [(600, 30)] = false) ∧
    (isTimeSlotAvailable 600 d1 [(600, 30)] = false) := by
  simp only [isTimeSlotAvailable_singleton, Bool.not_eq_true', Bool.not_eq_false']
  refine ⟨?_, ?_, ?_, ?_, ?_, ?_⟩
  · rw [overlapsAppointment_eq_false_iff]; omega
  · intro s1 hs1; rw [overlapsAppointment_eq_false_iff]; omega
  · rw [overlapsAppointment_iff]; omega
  · rw [overlapsAppointment_eq_false_iff]; omega
  · rw [overlapsAppointment_iff]; omega
  · rw [overlapsAppointment_iff]; omega

/-- Witness for C3 amended at the concrete appointment 10:00-10:30 with a
30-minute candidate duration. -/
theorem C3_boundary_amended_witness :
    (isTimeSlotAvailable (600 + 30) 30 [(600, 30)] = true) ∧
    (∀ s1, s1 + 30 = 600 → isTimeSlotAvailable s1 30 [(600, 30)] = true) ∧
    (isTimeSlotAvailable 600 30 [(600, 30)] = false) ∧
    (isTimeSlotAvailable 630 30 [(600, 30)] = true) ∧
    (isTimeSlotAvailable 585 30 [(600, 30)] = false) ∧
    (isTimeSlotAvailable 600 30 [(600, 30)] = false) :=
  C3_boundary_amended 600 30 30 (by decide) (by decide)

/-! ## Theorems: slot generator -/

lemma slotMinutesGo_nil (fuel minute : Nat) (endMinute : Int)
    (h : endMinute < (minute : Int)) : slotMinutesGo fuel minute endMinute = [] := by
  cases fuel with
  | zero => rfl
  | succ n => simp [slotMinutesGo, not_le.mpr h]

lemma slotMinutesGo_fuel : ∀ (f1 f2 minute : Nat) (endMinute : Int),
    (endMinute + 1 - (minute : Int)).toNat ≤ f1 →
    (endMinute + 1 - (minute : Int)).toNat ≤ f2 →
    slotMinutesGo f1 minute endMinute = slotMinutesGo f2 minute endMinute := by
  intro f1
  induction f1 with
  | zero =>
    intro f2 minute endMinute h1 h2
    have h : endMinute < (minute : Int) := by omega
    rw [slotMinutesGo_nil 0 _ _ h, slotMinutesGo_nil f2 _ _ h]
  | succ n ih =>
    intro f2 minute endMinute h1 h2
    by_cases hle : (minute : Int) ≤ endMinute
    · cases f2 with
      | zero => omega
      | succ k =>
        simp only [slotMinutesGo, if_pos hle]
        rw [ih k (minute + 30) endMinute (by push_cast; omega) (by push_cast; omega)]
    · have h : endMinute < (minute : Int) := by omega
      rw [slotMinutesGo_nil _ _ _ h, slotMinutesGo_nil _ _ _ h]

/-- `slotMinutes` satisfies the unfolding equation of the source loop. -/
lemma slotMinutes_eq (startMinute : Nat) (endMinute : Int) :
    slotMinutes startMinute endMinute =
      if (startMinute : Int) ≤ endMinute then
        startMinute :: slotMinutes (startMinute + 30) endMinute
      else [] := by
  unfold slotMinutes
  by_cases h : (startMinute : Int) ≤ endMinute
  · rw [if_pos h]
    obtain ⟨k, hk⟩ : ∃ k, (endMinute + 1 - (startMinute : Int)).toNat = k + 1 :=
      ⟨(endMinute + 1 - (startMinute : Int)).toNat - 1, by omega⟩
    rw [hk]
    simp only [slotMinutesGo, if_pos h]
    rw [slotMinutesGo_fuel k _ (startMinute + 30) endMinute (by push_cast; omega)
      (le_refl _)]
  · rw [if_neg h]
    exact slotMinutesGo_nil _ _ _ (by omega)

lemma slotMinutesGo_mem : ∀ (fuel minute : Nat) (endMinute : Int) (m : Nat),
    m ∈ slotMinutesGo fuel minute endMinute → minute ≤ m ∧ (m : Int) ≤ endMinute := by
  intro fuel
  induction fuel with
  | zero => intro minute endMinute m h; simp [slotMinutesGo] at h
  | succ n ih =>
    intro minute endMinute m h
    simp only [slotMinutesGo] at h
    split at h
    · rcases List.mem_cons.mp h with rfl | h2
      · exact ⟨le_refl m, by assumption⟩
      · obtain ⟨ha, hb⟩ := ih (minute + 30) endMinute m h2
        exact ⟨by omega, hb⟩
    · simp at h

lemma slotMinutes_mem (startMinute : Nat) (endMinute : Int) (m : Nat)
    (h : m ∈ slotMinutes startMinute endMinute) :
    startMinute ≤ m ∧ (m : Int) ≤ endMinute :=
  slotMinutesGo_mem _ _ _ _ h

/-- Claim C5: for business hours with opening strictly before closing (and
well-formed minute fields), every generated candidate starts at or after the
opening time and strictly before the closing time; concretely, for 09:00 to
17:00 the candidates are 09:00, 09:30, ..., 16:30. -/
theorem C5_slot_bounds (oH oM cH cM : Nat)
    (hoM : oM < 60) (hcM : cM < 60)
    (hlt : oH * 60 + oM < cH * 60 + cM) :
    (∀ slot ∈ candidateSlots oH oM cH cM,
        oH * 60 + oM ≤ slot ∧ slot < cH * 60 + cM) ∧
    candidateSlots 9 0 17 0 = [540, 570, 600, 630, 660, 690, 720, 750, 780,
      810, 840, 870, 900, 930, 960, 990] := by
  constructor
  · intro slot hslot
    simp only [candidateSlots, List.mem_flatMap, List.mem_map, List.mem_range] at hslot
    obtain ⟨hour, ⟨i, hi, rfl⟩, hmem⟩ := hslot
    rw [hourSlots] at hmem
    split at hmem
    · simp at hmem
    · rw [List.mem_map] at hmem
      obtain ⟨m, hm, rfl⟩ := hmem
      obtain ⟨hm1, hm2⟩ := slotMinutes_mem _ _ _ hm
      have hround : hourStartMinute oH oM (oH + i) ≤
          roundUpToSlotInterval (hourStartMinute oH oM (oH + i)) := by
        unfold roundUpToSlotInterval; omega
      constructor
      · by_cases hoeq : oH + i = oH
        · have heq : hourStartMinute oH oM (oH + i) = oM := by
            unfold hourStartMinute
            rw [if_pos (by simp [hoeq])]
          omega
        · omega
      · by_cases hceq : oH + i = cH
        · have heq : hourEndMinute cH cM (oH + i) = (cM : Int) - 1 := by
            unfold hourEndMinute
            rw [if_pos (by simp [hceq])]
          rw [heq] at hm2
          omega
        · have heq : hourEndMinute cH cM (oH + i) = 59 := by
            unfold hourEndMinute
            rw [if_neg (by simp [hceq])]
          rw [heq] at hm2
          omega
  · decide

/-- Witness for C5 at the concrete business hours 09:00 to 17:00. -/
theorem C5_slot_bounds_witness :
    (∀ slot ∈ candidateSlots 9 0 17 0, 9 * 60 + 0 ≤ slot ∧ slot < 17 * 60 + 0) ∧
    candidateSlots 9 0 17 0 = [540, 570, 600, 630, 660, 690, 720, 750, 780,
      810, 840, 870, 900, 930, 960, 990] :=
  C5_slot_bounds 9 0 17 0 (by decide) (by decide) (by decide)

/-- Counterexample to claim C4 as stated: with opening 09:15, closing 09:45
and interval 30, the generator does NOT produce zero slots — the candidate
list is nonempty (it contains 09:30). -/
theorem C4_unaligned_hour_counterexample :
    candidateSlots 9 15 9 45 ≠ [] := by decide

/-- Claim C4 amended: when the closing time equals the opening time plus
exactly one slot interval and the opening minute is not aligned to the
interval, the generator produces exactly ONE candidate slot, at the opening
time rounded up to the next multiple of the interval (for opening 09:15 and
closing 09:45 that single slot is 09:30), not zero. -/
theorem C4_unaligned_hour_amended (oH oM cH cM : Nat)
    (hoM : oM < 60) (hcM : cM < 60) (halign : oM % 30 ≠ 0)
    (hclose : cH * 60 + cM = oH * 60 + oM + 30) :
    candidateSlots oH oM cH cM = [((oH * 60 + oM + 29) / 30) * 30] := by
  by_cases hcase : oM < 30
  · -- opening minute in 1..29: closing falls in the same hour
    have hch : oH = cH := by omega
    have hcm : cM = oM + 30 := by omega
    subst hch hcm
    have hA : hourSlots oH oM oH (oM + 30) oH = [oH * 60 + 30] := by
      unfold hourSlots
      have hs : hourStartMinute oH oM oH = oM := by
        unfold hourStartMinute; rw [if_pos (by simp)]
      have he : hourEndMinute oH (oM + 30) oH = (oM : Int) + 30 - 1 := by
        unfold hourEndMinute
        rw [if_pos (by simp)]
        push_cast
        ring
      rw [hs, he, if_neg (by simp; omega)]
      have hr : roundUpToSlotInterval oM = 30 := by
        unfold roundUpToSlotInterval; omega
      rw [hr, slotMinutes_eq, if_pos (by omega), slotMinutes_eq, if_neg (by omega)]
      simp
    simp only [candidateSlots]
    rw [show oH + 1 - oH = 1 from by omega]
    simp only [show List.range 1 = [0] from by decide, List.map_cons, List.map_nil,
      List.flatMap_cons, List.flatMap_nil, List.append_nil]
    rw [show oH + 0 = oH from by omega, hA]
    congr 1
    omega
  · -- opening minute in 31..59: the single slot is at the top of the next hour
    have hch : cH = oH + 1 := by omega
    have hcm : cM = oM - 30 := by omega
    subst hch hcm
    have hA : hourSlots oH oM (oH + 1) (oM - 30) oH = [] := by
      unfold hourSlots
      have hs : hourStartMinute oH oM oH = oM := by
        unfold hourStartMinute; rw [if_pos (by simp)]
      have he : hourEndMinute (oH + 1) (oM - 30) oH = 59 := by
        unfold hourEndMinute; rw [if_neg (by simp)]
      rw [hs, he, if_neg (by simp)]
      have hr : roundUpToSlotInterval oM = 60 := by
        unfold roundUpToSlotInterval; omega
      rw [hr, slotMinutes_eq, if_neg (by omega)]
      simp
    have hB : hourSlots oH oM (oH + 1) (oM - 30) (oH + 1) = [(oH + 1) * 60 + 0] := by
      unfold hourSlots
      have hs : hourStartMinute oH oM (oH + 1) = 0 := by
        unfold hourStartMinute; rw [if_neg (by simp)]
      have he : hourEndMinute (oH + 1) (oM - 30) (oH + 1) = ((oM - 30 : Nat) : Int) - 1 := by
        unfold hourEndMinute; rw [if_pos (by simp)]
      rw [hs, he, if_neg (by simp; omega)]
      have hr : roundUpToSlotInterval 0 = 0 := by
        unfold roundUpToSlotInterval; omega
      rw [hr, slotMinutes_eq, if_pos (by omega), slotMinutes_eq, if_neg (by omega)]
      simp
    simp only [candidateSlots]
    rw [show oH + 1 + 1 - oH = 2 from by omega]
    simp only [show List.range 2 = [0, 1] from by decide, List.map_cons, List.map_nil,
      List.flatMap_cons, List.flatMap_nil, List.append_nil]
    rw [show oH + 0 = oH from by omega, show oH + 1 = oH + 1 from rfl, hA, hB]
    simp only [List.nil_append]
    congr 1
    omega

/-- Witness for C4 amended at the concrete hours 09:15 to 09:45. -/
theorem C4_unaligned_hour_amended_witness :
    candidateSlots 9 15 9 45 = [((9 * 60 + 15 + 29) / 30) * 30] :=
  C4_unaligned_hour_amended 9 15 9 45 (by decide) (by decide) (by decide) (by decide)

/-- Claim C6: a candidate is discarded by past-slot exclusion iff the target
day equals the current day (same year, month and day) and the candidate
instant is strictly before now; concretely, with now 11:15 on the requested
day, hours 09:00 to 17:00, interval 30 and no appointments, slots 09:00
through 11:00 are excluded and 11:30 onward are included. -/
theorem C6_past_exclusion :
    (∀ (targetDay nowDay : Day) (slotMinute nowMinute : Nat),
        isPastSlot targetDay slotMinute nowDay nowMinute = true ↔
          (targetDay.year = nowDay.year ∧ targetDay.month = nowDay.month ∧
            targetDay.day = nowDay.day ∧ slotMinute < nowMinute)) ∧
    getAvailableSlots ⟨2026, 10, 11⟩ 9 0 17 0 60 ⟨2026, 10, 11⟩ 675 [] =
      [690, 720, 750, 780, 810, 840, 870, 900, 930, 960, 990] := by
  constructor
  · intro targetDay nowDay slotMinute nowMinute
    simp only [isPastSlot, isSameDay, Bool.and_eq_true, beq_iff_eq, decide_eq_true_eq]
    tauto
  · decide

/-! ## Theorems: duration fallback and service filter -/

lemma matchesFetch_fill (saloonId : Nat) (targetDay : Day) (serviceFilter : Option Nat)
    (a : StoredAppointment) :
    matchesFetch saloonId targetDay serviceFilter (fillStoredDuration a) =
      matchesFetch saloonId targetDay serviceFilter a := rfl

lemma fetchAppointments_map_fill (store : List StoredAppointment) (saloonId : Nat)
    (targetDay : Day) (serviceFilter : Option Nat) :
    fetchAppointments (store.map fillStoredDuration) saloonId targetDay serviceFilter =
      fetchAppointments store saloonId targetDay serviceFilter := by
  induction store with
  | nil => rfl
  | cons a t ih =>
    unfold fetchAppointments at ih ⊢
    simp only [List.map_cons, List.filter_cons, matchesFetch_fill]
    by_cases hpa : matchesFetch saloonId targetDay serviceFilter a = true
    · rw [if_pos hpa, if_pos hpa, List.map_cons, List.map_cons]
      exact congrArg (List.cons _) ih
    · rw [if_neg hpa, if_neg hpa]
      exact ih

/-- Claim C8: a missing service duration means 60 — no requested service, or
a requested service without a stored duration, gives candidate duration 60,
and the whole availability result is unchanged when every missing stored
duration (of the requested service and of the existing appointments) is
explicitly replaced by 60 beforehand. -/
theorem C8_default_duration (store : List StoredAppointment) (saloonId : Nat)
    (targetDay : Day) (oH oM cH cM : Nat) (service : Option (Nat × Option Nat))
    (nowDay : Day) (nowMinute : Nat) :
    (requestedServiceDuration none = 60) ∧
    (∀ serviceId, requestedServiceDuration (some (serviceId, none)) = 60) ∧
    (getSaloonAvailabilityCore store saloonId targetDay oH oM cH cM
        service nowDay nowMinute =
      getSaloonAvailabilityCore (store.map fillStoredDuration) saloonId targetDay
        oH oM cH cM (service.map fillServiceDuration) nowDay nowMinute) := by
  refine ⟨rfl, fun _ => rfl, ?_⟩
  unfold getSaloonAvailabilityCore
  rw [fetchAppointments_map_fill]
  have h1 : requestedServiceDuration (service.map fillServiceDuration) =
      requestedServiceDuration service := by
    cases service with
    | none => rfl
    | some s =>
      obtain ⟨serviceId, d⟩ := s
      cases d <;> rfl
  have h2 : (service.map fillServiceDuration).map (fun s => s.1) =
      service.map (fun s => s.1) := by
    cases service <;> rfl
  rw [h1, h2]

/-- Claim C9: when a service id is supplied, only blocking appointments of
that same service occupy time — appending an appointment of a different
service (however it overlaps) leaves the availability result unchanged —
while with no service id supplied every blocking appointment of the saloon
on the day is fetched, regardless of its service. -/
theorem C9_service_filter (store : List StoredAppointment) (extra : StoredAppointment)
    (saloonId : Nat) (targetDay : Day) (serviceId : Nat) (storedDuration : Option Nat)
    (oH oM cH cM : Nat) (nowDay : Day) (nowMinute : Nat)
    (hdiff : extra.service_id ≠ serviceId) :
    (getSaloonAvailabilityCore (store ++ [extra]) saloonId targetDay oH oM cH cM
        (some (serviceId, storedDuration)) nowDay nowMinute =
      getSaloonAvailabilityCore store saloonId targetDay oH oM cH cM
        (some (serviceId, storedDuration)) nowDay nowMinute) ∧
    (∀ b ∈ store, b.saloon_id = saloonId → b.day = targetDay →
      isBlockingStatus b.status = true →
      (b.startMinute, coalesceDuration b.duration) ∈
        fetchAppointments store saloonId targetDay none) := by
  constructor
  · unfold getSaloonAvailabilityCore
    have hfetch : fetchAppointments (store ++ [extra]) saloonId targetDay
        ((some (serviceId, storedDuration)).map (fun s => s.1)) =
      fetchAppointments store saloonId targetDay
        ((some (serviceId, storedDuration)).map (fun s => s.1)) := by
      unfold fetchAppointments
      rw [List.filter_append]
      have hext : List.filter
          (matchesFetch saloonId targetDay
            ((some (serviceId, storedDuration)).map (fun s => s.1))) [extra] = [] := by
        have hm : matchesFetch saloonId targetDay (some serviceId) extra = false := by
          unfold matchesFetch
          simp [hdiff]
        show List.filter (matchesFetch saloonId targetDay (some serviceId)) [extra] = []
        simp [List.filter, hm]
      rw [hext, List.append_nil]
    rw [hfetch]
  · intro b hb hsal hday hstat
    unfold fetchAppointments
    rw [List.mem_map]
    refine ⟨b, ?_, rfl⟩
    rw [List.mem_filter]
    refine ⟨hb, ?_⟩
    unfold matchesFetch
    simp [hsal, hday, hstat]

/-- A sample stored appointment used by the C9 witness: service 5, saloon 1,
10:00 for 30 minutes, pending. -/
def sampleStored : StoredAppointment :=
  { saloon_id := 1, service_id := 5, day := ⟨2026, 10, 11⟩,
    startMinute := 600, duration := some 30, status := AppointmentStatus.pending }

/-- Witness for C9: the pending appointment of service 5 does not block any
slot when availability is asked for service 4. -/
theorem C9_service_filter_witness :
    (getSaloonAvailabilityCore ([] ++ [sampleStored]) 1 ⟨2026, 10, 11⟩ 9 0 17 0
        (some (4, none)) ⟨2026, 10, 10⟩ 0 =
      getSaloonAvailabilityCore [] 1 ⟨2026, 10, 11⟩ 9 0 17 0
        (some (4, none)) ⟨2026, 10, 10⟩ 0) ∧
    (∀ b ∈ ([] : List StoredAppointment), b.saloon_id = 1 → b.day = ⟨2026, 10, 11⟩ →
      isBlockingStatus b.status = true →
      (b.startMinute, coalesceDuration b.duration) ∈
        fetchAppointments [] 1 ⟨2026, 10, 11⟩ none) :=
  C9_service_filter [] sampleStored 1 ⟨2026, 10, 11⟩ 4 none 9 0 17 0
    ⟨2026, 10, 10⟩ 0 (by decide)

end SaloonGuide
